import Mathlib

/-!
Verification of the video catalog addressing and upload subsystem of `app.py`
(a Telegram bot managing a directory of `.mp4` files).

The filesystem is modelled as the list of file names present in the managed
directory `videos/`; the in-memory `video_hash_map` registry is modelled as an
association list where assignment prepends (first match wins on lookup, which
matches dictionary overwrite semantics).  Python string primitives
(`startswith`, `endswith`, slicing, `len`) are modelled over the character
sequence of the string, matching Python's code-point semantics.  The SHA-256
digest used for long names is an external library primitive; it is modelled as
an arbitrary function `sha : String → String`, since no claim depends on any
property of the digest itself.
-/

namespace SoraBot

/-- Python `s.startswith(p)`: the first `len(p)` characters of `s` equal `p`. -/
def pyStartswith (s p : String) : Bool :=
  decide (s.data.take p.data.length = p.data)

/-- Python `s.endswith(p)`: `p` is a suffix of `s`. -/
def pyEndswith (s p : String) : Bool :=
  decide (p.data <:+ s.data)

/-- Python `s[k:]`: drop the first `k` characters. -/
def pyDrop (s : String) (k : Nat) : String :=
  ⟨s.data.drop k⟩

/-- Python `len(s)`: number of code points. -/
def pyLen (s : String) : Nat :=
  s.data.length

/-- The module-level `video_hash_map : Dict[str, str]`.  Assignment conses the
new binding in front, so `List.lookup` (first match) realises dictionary
overwrite semantics. -/
abbrev Registry := List (String × String)

/-- Model of `list_videos`: `sorted([p.name for p in VIDEO_DIR.glob("*.mp4")])` over a
model filesystem `fs` (the names present in `videos/`). -/
def list_videos (fs : List String) : List String :=
  (fs.filter (fun n => pyEndswith n ".mp4")).mergeSort (fun a b => a ≤ b)

/-- The token-building step of `start` (lines 52–57): build `"V:" + name`; if
the callback data exceeds 60 characters, register the digest in
`video_hash_map` and use `"H:" + hash` instead.  Returns the token together
with the updated registry. -/
def encodeToken (sha : String → String) (m : Registry) (name : String) :
    String × Registry :=
  let data := "V:" ++ name
  if 60 < pyLen data then
    let h := sha name
    ("H:" ++ h, (h, name) :: m)
  else
    (data, m)

/-- Splitting a character sequence at `/`, the component structure pathlib
assigns to a path string. -/
def splitSlash : List Char → List (List Char)
  | [] => [[]]
  | c :: cs =>
    if c = '/' then [] :: splitSlash cs
    else
      match splitSlash cs with
      | h :: t => (c :: h) :: t
      | [] => [[c]]

/-- Model of `pathlib.Path(s).name`: the final path component.  Empty components and
`.` are normalised away by pathlib; `..` is kept.  The name of a path with no
remaining component (for example `"/"` or `""`) is the empty string. -/
def pyBasename (s : String) : String :=
  ⟨((splitSlash s.data).filter
      (fun t => decide (t ≠ [] ∧ t ≠ ['.']))).getLast?.getD []⟩

/-- Python `name.rfind('.')`: index of the rightmost dot, `none` when absent
(Python returns `-1`). -/
def pyRfindDot (s : String) : Option Nat :=
  match s.data.reverse.findIdx? (fun c => c == '.') with
  | some j => some (s.data.length - 1 - j)
  | none => none

/-- Model of `pathlib.Path(s).suffix` of a leaf name: `name[i:]` for the rightmost dot
index `i` when `0 < i < len(name) - 1`, else `""`. -/
def pySuffix (s : String) : String :=
  match pyRfindDot s with
  | some i => if 0 < i ∧ i < s.data.length - 1 then ⟨s.data.drop i⟩ else ""
  | none => ""

/-- Model of `pathlib.Path(s).stem` of a leaf name: `name[:i]` for the rightmost dot
index `i` when `0 < i < len(name) - 1`, else the whole name. -/
def pyStem (s : String) : String :=
  match pyRfindDot s with
  | some i => if 0 < i ∧ i < s.data.length - 1 then ⟨s.data.take i⟩ else s
  | none => s

/-- The candidate name `f"{stem}_{i}{suffix}"` tried by the collision loop of
`receive_upload`. -/
def candName (stem ext : String) (i : Nat) : String :=
  stem ++ "_" ++ Nat.repr i ++ ext

/-- The collision loop of `receive_upload` (lines 175–180): starting at
counter `i`, return the first counter whose candidate name is not present in
`fs`.  The Python loop is unbounded; `fuel` bounds the iterations here, and
`fs.length + 1` is proved sufficient below. -/
def firstFreeFrom (fs : List String) (stem ext : String) : Nat → Nat → Nat
  | i, 0 => i
  | i, fuel + 1 =>
    if candName stem ext i ∈ fs then firstFreeFrom fs stem ext (i + 1) fuel
    else i

/-- The destination-reservation logic of `receive_upload` (lines 169–180):
strip directory components from the candidate (`Path(original_name).name`);
if the resulting name is taken, try `stem_1`, `stem_2`, … until an unused
name is found. -/
def reserve_destination (fs : List String) (original_name : String) : String :=
  let safe := pyBasename original_name
  if safe ∈ fs then
    candName (pyStem safe) (pySuffix safe)
      (firstFreeFrom fs (pyStem safe) (pySuffix safe) 1 (fs.length + 1))
  else safe

/-- Python `s.lower()` (per code point). -/
def pyLower (s : String) : String :=
  ⟨s.data.map Char.toLower⟩

/-- Python truthiness of an optional integer: `None` and `0` are falsy. -/
def pyTruthyNat : Option Nat → Bool
  | none => false
  | some 0 => false
  | some (_ + 1) => true

/-- The 50 MiB ceiling `max_bytes = 50 * 1024 * 1024` used by both the send
path and the upload path. -/
def max_bytes : Nat := 50 * 1024 * 1024

/-- Telegram `Video` attachment metadata.  `mime_type` is part of the
Telegram object but is never consulted by `receive_upload`. -/
structure Video where
  file_size : Option Nat
  file_name : Option String
  file_id : String
  mime_type : Option String
deriving DecidableEq

/-- Telegram `Document` attachment metadata used by `receive_upload`. -/
structure Document where
  file_size : Option Nat
  file_name : Option String
  mime_type : Option String
deriving DecidableEq

/-- The parts of an incoming message that `receive_upload` inspects. -/
structure Msg where
  video : Option Video
  document : Option Document
deriving DecidableEq

/-- Conversation state: no active session (`ConversationHandler.END`) or the
`UPLOAD_WAITING` state. -/
inductive ConvState where
  | idle
  | uploadWaiting
deriving DecidableEq

/-- Reply emitted by `upload_entry`. -/
inductive EntryReply where
  /-- Reply "You are not authorized to use /upload." -/
  | denied
  /-- Reply "Please send the .mp4 video file (under 50MB)." -/
  | prompt
deriving DecidableEq

/-- Model of `upload_entry` (lines 112–123): deny unless an admin id is configured and
the requester is that admin; otherwise prompt and enter `UPLOAD_WAITING`. -/
def upload_entry (admin_id : Option Int) (user_id : Int) :
    EntryReply × ConvState :=
  match admin_id with
  | none => (.denied, .idle)
  | some a => if user_id ≠ a then (.denied, .idle) else (.prompt, .uploadWaiting)

/-- Reply emitted by `receive_upload`. -/
inductive UploadReply where
  /-- Reply "You are not authorized." -/
  | denied
  /-- Reply "Please send a .mp4 file as a video or document." -/
  | badAttachment
  /-- Reply "Only .mp4 video files are accepted." -/
  | unsupportedType
  /-- Reply "File is too large." -/
  | tooLarge
  /-- Reply "Upload successful! Saved as `dest`." -/
  | saved (dest : String)
  /-- Reply "Failed to save the uploaded file"; `dest` is the path the download
  targeted. -/
  | saveFailed (dest : String)
deriving DecidableEq

/-- Outcome of the external `download_to_drive` call.  The code hands the
final destination straight to the library (`custom_path=str(dest)`): no
temporary file and no rename is involved, so an interrupted transfer can
leave a truncated file at the destination (`failPartial`), or fail before
creating it (`failClean`). -/
inductive DlResult where
  | success
  | failPartial
  | failClean
deriving DecidableEq

/-- Lines 139–153 of `receive_upload`: extract `(file_size, original_name)`
from the attachment, or `none` when the message carries neither a video nor a
document.  A video with a falsy `file_name` gets the synthetic
`video_<file_id>.mp4` name; a document whose `file_name` is `None` (but not
one whose name is the empty string) gets `video_upload.mp4`. -/
def extractMeta (msg : Msg) : Option (Option Nat × String) :=
  match msg.video with
  | some v =>
    some (v.file_size,
      match v.file_name with
      | some s => if s = "" then "video_" ++ v.file_id ++ ".mp4" else s
      | none => "video_" ++ v.file_id ++ ".mp4")
  | none =>
    match msg.document with
    | some d => some (d.file_size, d.file_name.getD "video_upload.mp4")
    | none => none

/-- Python `d.mime_type and d.mime_type.startswith("video")`. -/
def mimeLooksVideo (d : Document) : Bool :=
  match d.mime_type with
  | none => false
  | some mt => !(mt == "") && pyStartswith mt "video"

/-- The inner condition of line 156: the rejection applies only when the
message carries a document whose MIME type does not look like video; a
video-kind message is never rejected here. -/
def docGateRejects (msg : Msg) : Bool :=
  match msg.document with
  | some d => !(mimeLooksVideo d)
  | none => false

/-- Lines 154–158: reject when the lowercased name does not end in `.mp4`
and the document MIME check fails. -/
def typeGateRejects (msg : Msg) (original_name : String) : Bool :=
  !(pyEndswith (pyLower original_name) ".mp4") && docGateRejects msg

/-- Model of `receive_upload` (lines 126–189): re-check authorization, extract the
attachment metadata, run the extension/MIME gate and the declared-size gate,
then reserve a destination and download into it.  `fs` is the set of names in
the managed directory before the call; the returned list is the directory
content afterwards. -/
def receive_upload (admin_id : Option Int) (user_id : Int) (msg : Msg)
    (fs : List String) (dl : DlResult) :
    UploadReply × ConvState × List String :=
  match admin_id with
  | none => (.denied, .idle, fs)
  | some a =>
    if user_id ≠ a then (.denied, .idle, fs)
    else
      match extractMeta msg with
      | none => (.badAttachment, .uploadWaiting, fs)
      | some (file_size, original_name) =>
        if typeGateRejects msg original_name then
          (.unsupportedType, .uploadWaiting, fs)
        else if pyTruthyNat file_size && decide (max_bytes < file_size.getD 0) then
          (.tooLarge, .idle, fs)
        else
          let dest := reserve_destination fs original_name
          match dl with
          | .success => (.saved dest, .idle, dest :: fs)
          | .failPartial => (.saveFailed dest, .idle, dest :: fs)
          | .failClean => (.saveFailed dest, .idle, fs)

/-- Replies the command dispatcher can produce. -/
inductive CmdReply where
  | startListing
  | helpText
  | uploadPrompt
  | uploadDenied
  | cancelled
  | unknownCommand
deriving DecidableEq

/-- Dispatch of a command update through the handler chain registered in
`main` (lines 225–243): `CommandHandler("start")`, `CommandHandler("help")`,
the upload `ConversationHandler` (entry point `/upload`, state
`UPLOAD_WAITING` whose only handler accepts document/video messages, fallback
`/cancel`), the callback-query handler (never matches a command), and finally
`MessageHandler(filters.COMMAND, unknown)`.  The `ConversationHandler` is
constructed without `allow_reentry`, which defaults to false: while a
conversation is active its entry points are not consulted, so a command
matching neither a state handler nor a fallback falls through to the
catch-all unknown-command handler. -/
def dispatch_command (admin_id : Option Int) (user_id : Int)
    (st : ConvState) (cmd : String) : CmdReply × ConvState :=
  if cmd = "start" then (.startListing, st)
  else if cmd = "help" then (.helpText, st)
  else
    match st with
    | .idle =>
      if cmd = "upload" then
        match upload_entry admin_id user_id with
        | (.denied, s) => (.uploadDenied, s)
        | (.prompt, s) => (.uploadPrompt, s)
      else (.unknownCommand, .idle)
    | .uploadWaiting =>
      if cmd = "cancel" then (.cancelled, .idle)
      else (.unknownCommand, .uploadWaiting)

/-- Result of interpreting callback data in `callback_query_handler`. -/
inductive Decoded where
  /-- A filename was recovered from the token. -/
  | found (name : String)
  /-- An `H:` token whose hash is not in the registry (the video is gone). -/
  | stale
  /-- Neither prefix matched ("Unknown action."). -/
  | unknown
deriving DecidableEq

/-- The token-interpretation step of `callback_query_handler` (lines 80–90):
`V:` yields the suffix directly, `H:` consults `video_hash_map`. -/
def decodeToken (m : Registry) (data : String) : Decoded :=
  if pyStartswith data "V:" then
    .found (pyDrop data 2)
  else if pyStartswith data "H:" then
    match m.lookup (pyDrop data 2) with
    | some n => .found n
    | none => .stale
  else
    .unknown

/-- Outcome of `callback_query_handler` after token interpretation. -/
inductive CbOutcome where
  /-- Reply saying the video can no longer be found. -/
  | staleToken
  /-- Reply "Unknown action." -/
  | unknownAction
  /-- Reply "Video file not found on server." -/
  | fileMissing
  /-- Reply saying the video is larger than 50MB and cannot be sent. -/
  | fileTooLarge
  /-- Action `reply_video(InputFile(str(path)))`. -/
  | sendVideo (path : String)
deriving DecidableEq

/-- Model of `VIDEO_DIR / filename` as pathlib computes it: joining an absolute
filename replaces the base entirely; otherwise the components concatenate. -/
def pyJoinVideos (filename : String) : String :=
  if pyStartswith filename "/" then filename else "videos/" ++ filename

/-- Model of `callback_query_handler` (lines 75–105) over a model filesystem `stat`
mapping a path string to the size of the file found there (`none` when no
file exists).  The decoded filename is used as-is: no membership check
against the catalog, no stripping of directory components. -/
def callback_query_handler (m : Registry) (stat : String → Option Nat)
    (data : String) : CbOutcome :=
  match decodeToken m data with
  | .stale => .staleToken
  | .unknown => .unknownAction
  | .found filename =>
    let path := pyJoinVideos filename
    match stat path with
    | none => .fileMissing
    | some size => if max_bytes < size then .fileTooLarge else .sendVideo path

lemma pyStartswith_append (p s : String) : pyStartswith (p ++ s) p = true := by
  simp [pyStartswith, String.data_append, List.take_left]

lemma pyDrop_append (p s : String) (k : Nat) (h : p.data.length = k) :
    pyDrop (p ++ s) k = s := by
  simp [pyDrop, String.data_append, ← h, List.drop_left]

lemma pyStartswith_H_V (h : String) : pyStartswith ("H:" ++ h) "V:" = false := by
  have hd : ("H:" ++ h).data = 'H' :: ':' :: h.data := by
    simp [String.data_append]
  simp [pyStartswith, hd]

lemma mem_list_videos {fs : List String} {n : String} :
    n ∈ list_videos fs ↔ n ∈ fs ∧ pyEndswith n ".mp4" = true := by
  unfold list_videos
  rw [(List.mergeSort_perm _ _).mem_iff, List.mem_filter]

lemma decodeToken_V (m : Registry) (n : String) :
    decodeToken m ("V:" ++ n) = .found n := by
  unfold decodeToken
  rw [pyStartswith_append]
  simp
  exact pyDrop_append "V:" n 2 rfl

lemma decodeToken_H (m : Registry) (h : String) :
    decodeToken m ("H:" ++ h) =
      match m.lookup h with
      | some n => .found n
      | none => .stale := by
  unfold decodeToken
  rw [pyStartswith_H_V, pyStartswith_append, pyDrop_append "H:" h 2 rfl]
  simp

lemma encodeToken_long (sha : String → String) (m : Registry) (n : String)
    (hlt : 60 < pyLen ("V:" ++ n)) :
    encodeToken sha m n = ("H:" ++ sha n, (sha n, n) :: m) := by
  unfold encodeToken
  rw [if_pos hlt]

lemma encodeToken_short (sha : String → String) (m : Registry) (n : String)
    (hle : pyLen ("V:" ++ n) ≤ 60) :
    encodeToken sha m n = ("V:" ++ n, m) := by
  unfold encodeToken
  rw [if_neg (Nat.not_lt_of_le hle)]

/-- C1: for every filename `n` in a catalog listing, decoding the token that
`encodeToken` produced for `n` — against the registry as it stands at the
moment the token was issued — yields `n` again: a direct `V:` token carries the
name itself, and an indirect `H:` token resolves through the registry entry
written when the token was built. -/
theorem decode_encode_roundtrip (sha : String → String) (m : Registry)
    (fs : List String) (n : String) (_hmem : n ∈ list_videos fs) :
    decodeToken (encodeToken sha m n).2 (encodeToken sha m n).1 = .found n := by
  by_cases hlen : 60 < pyLen ("V:" ++ n)
  · rw [encodeToken_long sha m n hlen]
    rw [decodeToken_H]
    simp [List.lookup]
  · rw [encodeToken_short sha m n (Nat.le_of_not_lt hlen)]
    exact decodeToken_V m n

/-- Witness for C1 at a concrete listing entry. -/
theorem decode_encode_roundtrip_witness :
    decodeToken
        (encodeToken (fun _ => "deadbeef") [] "a.mp4").2
        (encodeToken (fun _ => "deadbeef") [] "a.mp4").1 = .found "a.mp4" :=
  decode_encode_roundtrip (fun _ => "deadbeef") [] ["a.mp4"] "a.mp4"
    (mem_list_videos.mpr ⟨by decide, by decide⟩)

/-- C2: `encodeToken` produces the direct token `"V:" + n` exactly when the
encoded token (prefix included) fits the 60-character ceiling; a longer name is
instead registered, yielding `"H:" + sha n`, and looking the digest up in the
registry returned alongside the token recovers `n`. -/
theorem encode_direct_iff_short (sha : String → String) (m : Registry)
    (n : String) :
    (pyLen ("V:" ++ n) ≤ 60 → encodeToken sha m n = ("V:" ++ n, m)) ∧
    (60 < pyLen ("V:" ++ n) →
      (encodeToken sha m n).1 = "H:" ++ sha n ∧
      ((encodeToken sha m n).2).lookup (sha n) = some n) := by
  constructor
  · intro hle
    exact encodeToken_short sha m n hle
  · intro hlt
    rw [encodeToken_long sha m n hlt]
    exact ⟨rfl, by simp [List.lookup]⟩

/-- Witness for C2: a short name stays direct; a 65-character name (67 with the
prefix) goes through the registry and its digest resolves back to the name. -/
theorem encode_direct_iff_short_witness :
    (encodeToken (fun _ => "deadbeef") [] "a.mp4" = ("V:" ++ "a.mp4", []) ∧
      pyLen ("V:" ++ "a.mp4") ≤ 60) ∧
    (60 < pyLen ("V:" ++ "aaaaaaaaaaaaaaaaaaaaaaaaaaaaaaaaaaaaaaaaaaaaaaaaaaaaaaaaaaaaa.mp4") ∧
      (encodeToken (fun _ => "deadbeef") []
          "aaaaaaaaaaaaaaaaaaaaaaaaaaaaaaaaaaaaaaaaaaaaaaaaaaaaaaaaaaaaa.mp4").1 =
        "H:" ++ "deadbeef" ∧
      ((encodeToken (fun _ => "deadbeef") []
          "aaaaaaaaaaaaaaaaaaaaaaaaaaaaaaaaaaaaaaaaaaaaaaaaaaaaaaaaaaaaa.mp4").2).lookup
          "deadbeef" =
        some "aaaaaaaaaaaaaaaaaaaaaaaaaaaaaaaaaaaaaaaaaaaaaaaaaaaaaaaaaaaaa.mp4") :=
  ⟨⟨(encode_direct_iff_short (fun _ => "deadbeef") [] "a.mp4").1 (by decide),
    by decide⟩,
   ⟨by decide,
    ((encode_direct_iff_short (fun _ => "deadbeef") []
        "aaaaaaaaaaaaaaaaaaaaaaaaaaaaaaaaaaaaaaaaaaaaaaaaaaaaaaaaaaaaa.mp4").2
      (by decide)).1,
    ((encode_direct_iff_short (fun _ => "deadbeef") []
        "aaaaaaaaaaaaaaaaaaaaaaaaaaaaaaaaaaaaaaaaaaaaaaaaaaaaaaaaaaaaa.mp4").2
      (by decide)).2⟩⟩

/-! ### Injectivity of decimal rendering, and the collision loop -/

lemma digitChar_injOn_lt10 :
    ∀ a, a < 10 → ∀ b, b < 10 → Nat.digitChar a = Nat.digitChar b → a = b := by
  decide

lemma map_digitChar_inj :
    ∀ l1 l2 : List ℕ, (∀ x ∈ l1, x < 10) → (∀ x ∈ l2, x < 10) →
      l1.map Nat.digitChar = l2.map Nat.digitChar → l1 = l2
  | [], [], _, _, _ => rfl
  | [], _ :: _, _, _, h => by simp at h
  | _ :: _, [], _, _, h => by simp at h
  | a :: l1, b :: l2, h1, h2, h => by
    simp only [List.map_cons, List.cons.injEq] at h
    have hab := digitChar_injOn_lt10 a (h1 a (List.mem_cons_self a l1))
      b (h2 b (List.mem_cons_self b l2)) h.1
    have htl := map_digitChar_inj l1 l2
      (fun x hx => h1 x (List.mem_cons_of_mem a hx))
      (fun x hx => h2 x (List.mem_cons_of_mem b hx)) h.2
    rw [hab, htl]

lemma toDigitsCore_digits (fuel : ℕ) :
    ∀ n acc, 0 < n → n ≤ fuel →
      Nat.toDigitsCore 10 fuel n acc =
        ((Nat.digits 10 n).map Nat.digitChar).reverse ++ acc := by
  induction fuel with
  | zero => intro n acc h0 hf; omega
  | succ fuel ih =>
    intro n acc h0 hf
    have hdig : Nat.digits 10 n = n % 10 :: Nat.digits 10 (n / 10) :=
      Nat.digits_of_two_le_of_pos (by norm_num) h0
    by_cases hdiv : n / 10 = 0
    · have : Nat.digits 10 n = [n % 10] := by rw [hdig, hdiv, Nat.digits_zero]
      simp [Nat.toDigitsCore, hdiv, this]
    · have hrec := ih (n / 10) (Nat.digitChar (n % 10) :: acc)
        (Nat.pos_of_ne_zero hdiv)
        (by
          have := Nat.div_lt_self h0 (by norm_num : 1 < 10)
          omega)
      simp only [Nat.toDigitsCore, hdiv, if_false]
      rw [hrec, hdig]
      simp

lemma repr_eq_digits (n : ℕ) (h0 : 0 < n) :
    Nat.repr n = ⟨((Nat.digits 10 n).map Nat.digitChar).reverse⟩ := by
  show (Nat.toDigits 10 n).asString = _
  unfold Nat.toDigits List.asString
  rw [toDigitsCore_digits (n + 1) n [] h0 (Nat.le_succ n)]
  simp

lemma string_eq_of_data_eq {s t : String} (h : s.data = t.data) : s = t := by
  cases s; cases t; exact congrArg String.mk h

lemma repr_ne_zero_str (b : ℕ) (hb : 0 < b) : Nat.repr b ≠ "0" := by
  intro h
  rw [repr_eq_digits b hb] at h
  have hdat : ((Nat.digits 10 b).map Nat.digitChar).reverse = ['0'] :=
    congrArg String.data h
  have hmap : (Nat.digits 10 b).map Nat.digitChar = ['0'] := by
    have := congrArg List.reverse hdat
    simpa using this
  have hlen : (Nat.digits 10 b).length = 1 := by
    have := congrArg List.length hmap
    simpa using this
  obtain ⟨c, hc⟩ := List.length_eq_one.mp hlen
  rw [hc] at hmap
  simp only [List.map_cons, List.map_nil, List.cons.injEq, and_true] at hmap
  have hc10 : c < 10 :=
    Nat.digits_lt_base (by norm_num) (by rw [hc]; exact List.mem_singleton_self c)
  have hc0 : c = 0 := digitChar_injOn_lt10 c hc10 0 (by norm_num) (by rw [hmap]; rfl)
  have hbc : b = c := by
    have hofd := Nat.ofDigits_digits 10 b
    rw [hc] at hofd
    simpa [Nat.ofDigits_singleton] using hofd.symm
  omega

lemma repr_injective : Function.Injective Nat.repr := by
  intro a b h
  rcases Nat.eq_zero_or_pos a with ha | ha
  · rcases Nat.eq_zero_or_pos b with hb | hb
    · rw [ha, hb]
    · subst ha
      exact absurd h.symm (repr_ne_zero_str b hb)
  · rcases Nat.eq_zero_or_pos b with hb | hb
    · subst hb
      exact absurd h (repr_ne_zero_str a ha)
    · rw [repr_eq_digits a ha, repr_eq_digits b hb] at h
      have hdat := congrArg String.data h
      simp only at hdat
      have hrev := congrArg List.reverse hdat
      simp only [List.reverse_reverse] at hrev
      have hdig := map_digitChar_inj _ _
        (fun x hx => Nat.digits_lt_base (by norm_num) hx)
        (fun x hx => Nat.digits_lt_base (by norm_num) hx) hrev
      exact Nat.digits_inj_iff.mp hdig

lemma candName_injective (stem ext : String) :
    Function.Injective (candName stem ext) := by
  intro i j h
  apply repr_injective
  have hd := congrArg String.data h
  simp only [candName, String.data_append] at hd
  have h1 := List.append_cancel_right hd
  have h2 := List.append_cancel_left h1
  exact string_eq_of_data_eq h2

lemma exists_free_counter (fs : List String) (stem ext : String) :
    ∃ k, 1 ≤ k ∧ k ≤ fs.length + 1 ∧ candName stem ext k ∉ fs := by
  by_contra hall
  push_neg at hall
  have hsub : (Finset.range (fs.length + 1)).image
      (fun k => candName stem ext (k + 1)) ⊆ fs.toFinset := by
    intro x hx
    obtain ⟨k, hk, rfl⟩ := Finset.mem_image.mp hx
    have hk' := Finset.mem_range.mp hk
    exact List.mem_toFinset.mpr (hall (k + 1) (by omega) (by omega))
  have hcard := Finset.card_le_card hsub
  have hinj : Function.Injective (fun k => candName stem ext (k + 1)) :=
    fun a b hab => Nat.succ_injective (candName_injective stem ext hab)
  rw [Finset.card_image_of_injective _ hinj, Finset.card_range] at hcard
  have := fs.toFinset_card_le
  omega

lemma firstFreeFrom_succ (fs : List String) (stem ext : String) (i fuel : Nat) :
    firstFreeFrom fs stem ext i (fuel + 1) =
      if candName stem ext i ∈ fs then firstFreeFrom fs stem ext (i + 1) fuel
      else i :=
  rfl

lemma firstFreeFrom_spec (fs : List String) (stem ext : String) :
    ∀ fuel i, (∃ k, i ≤ k ∧ k < i + fuel ∧ candName stem ext k ∉ fs) →
      candName stem ext (firstFreeFrom fs stem ext i fuel) ∉ fs ∧
      i ≤ firstFreeFrom fs stem ext i fuel ∧
      ∀ j, i ≤ j → j < firstFreeFrom fs stem ext i fuel →
        candName stem ext j ∈ fs := by
  intro fuel
  induction fuel with
  | zero =>
    intro i ⟨k, hik, hk, _⟩
    omega
  | succ fuel ih =>
    intro i ⟨k, hik, hk, hfree⟩
    by_cases hmem : candName stem ext i ∈ fs
    · have hki : k ≠ i := fun he => hfree (he ▸ hmem)
      have hrec := ih (i + 1) ⟨k, by omega, by omega, hfree⟩
      have hstep : firstFreeFrom fs stem ext i (fuel + 1) =
          firstFreeFrom fs stem ext (i + 1) fuel := by
        rw [firstFreeFrom_succ, if_pos hmem]
      rw [hstep]
      refine ⟨hrec.1, by omega, fun j hij hjr => ?_⟩
      rcases Nat.eq_or_lt_of_le hij with he | hlt
      · exact he ▸ hmem
      · exact hrec.2.2 j (by omega) hjr
    · have hstep : firstFreeFrom fs stem ext i (fuel + 1) = i := by
        rw [firstFreeFrom_succ, if_neg hmem]
      rw [hstep]
      exact ⟨hmem, Nat.le_refl i, fun j hij hji => by omega⟩

/-- C3: after stripping directory components, `reserve_destination` returns the
candidate unchanged when no file of that name exists; otherwise it returns
`stem_i + extension` for the smallest counter `i ≥ 1` whose name is unused.
In every case the returned name is not present in `fs` at the instant of the
check. -/
theorem reserve_destination_spec (fs : List String) (original_name : String) :
    (pyBasename original_name ∉ fs →
      reserve_destination fs original_name = pyBasename original_name) ∧
    reserve_destination fs original_name ∉ fs ∧
    (pyBasename original_name ∈ fs →
      ∃ i, 1 ≤ i ∧
        reserve_destination fs original_name =
          candName (pyStem (pyBasename original_name))
            (pySuffix (pyBasename original_name)) i ∧
        ∀ j, 1 ≤ j → j < i →
          candName (pyStem (pyBasename original_name))
            (pySuffix (pyBasename original_name)) j ∈ fs) := by
  set safe := pyBasename original_name with hsafe
  by_cases hmem : safe ∈ fs
  · obtain ⟨k, hk1, hk2, hkfree⟩ :=
      exists_free_counter fs (pyStem safe) (pySuffix safe)
    have hspec := firstFreeFrom_spec fs (pyStem safe) (pySuffix safe)
      (fs.length + 1) 1 ⟨k, hk1, by omega, hkfree⟩
    have hres : reserve_destination fs original_name =
        candName (pyStem safe) (pySuffix safe)
          (firstFreeFrom fs (pyStem safe) (pySuffix safe) 1 (fs.length + 1)) := by
      unfold reserve_destination
      rw [← hsafe, if_pos hmem]
    refine ⟨fun h => absurd hmem h, ?_, fun _ => ?_⟩
    · rw [hres]
      exact hspec.1
    · exact ⟨_, hspec.2.1, hres, fun j hj1 hjlt => hspec.2.2 j hj1 hjlt⟩
  · have hres : reserve_destination fs original_name = safe := by
      unfold reserve_destination
      rw [← hsafe, if_neg hmem]
    exact ⟨fun _ => hres, hres ▸ hmem, fun h => absurd h hmem⟩

/-- Witness for C3: with `a.mp4` present, a second `a.mp4` is reserved as
`a_1.mp4`, a third as `a_2.mp4`; directory components are stripped; the
returned name never collides with an existing one. -/
theorem reserve_destination_spec_witness :
    reserve_destination ["a.mp4"] "a.mp4" = "a_1.mp4" ∧
    reserve_destination ["a.mp4", "a_1.mp4"] "a.mp4" = "a_2.mp4" ∧
    reserve_destination ["b.mp4"] "dir/a.mp4" = "a.mp4" ∧
    reserve_destination ["a.mp4"] "a.mp4" ∉ ["a.mp4"] :=
  ⟨by decide, by decide,
    (reserve_destination_spec ["b.mp4"] "dir/a.mp4").1 (by decide),
    (reserve_destination_spec ["a.mp4"] "a.mp4").2.1⟩

/-! ### Upload session properties -/

lemma receive_upload_auth (a : Int) (msg : Msg) (fs : List String)
    (dl : DlResult) :
    receive_upload (some a) a msg fs dl =
      match extractMeta msg with
      | none => (.badAttachment, .uploadWaiting, fs)
      | some (file_size, original_name) =>
        if typeGateRejects msg original_name then
          (.unsupportedType, .uploadWaiting, fs)
        else if pyTruthyNat file_size && decide (max_bytes < file_size.getD 0) then
          (.tooLarge, .idle, fs)
        else
          let dest := reserve_destination fs original_name
          match dl with
          | .success => (.saved dest, .idle, dest :: fs)
          | .failPartial => (.saveFailed dest, .idle, dest :: fs)
          | .failClean => (.saveFailed dest, .idle, fs) := by
  show (if a ≠ a then ((.denied, .idle, fs) : UploadReply × ConvState × List String)
      else _) = _
  rw [if_neg (fun hc => hc rfl)]

lemma receive_upload_gates (a : Int) (msg : Msg) (fs : List String)
    (dl : DlResult) (fsz : Option Nat) (name : String)
    (hmeta : extractMeta msg = some (fsz, name))
    (hgate : typeGateRejects msg name = false)
    (hsize : (pyTruthyNat fsz && decide (max_bytes < fsz.getD 0)) = false) :
    receive_upload (some a) a msg fs dl =
      match dl with
      | .success => (.saved (reserve_destination fs name), .idle,
          reserve_destination fs name :: fs)
      | .failPartial => (.saveFailed (reserve_destination fs name), .idle,
          reserve_destination fs name :: fs)
      | .failClean => (.saveFailed (reserve_destination fs name), .idle, fs) := by
  rw [receive_upload_auth, hmeta]
  simp only [hgate, Bool.false_eq_true, if_false, hsize]

lemma not_unsupported_of_gate_false (a : Int) (msg : Msg) (fs : List String)
    (dl : DlResult) (fsz : Option Nat) (name : String)
    (hmeta : extractMeta msg = some (fsz, name))
    (hgate : typeGateRejects msg name = false) :
    (receive_upload (some a) a msg fs dl).1 ≠ .unsupportedType := by
  rw [receive_upload_auth, hmeta]
  simp only [hgate, Bool.false_eq_true, if_false]
  by_cases hs : (pyTruthyNat fsz && decide (max_bytes < fsz.getD 0)) = true
  · simp [hs]
  · simp only [Bool.not_eq_true] at hs
    simp only [hs, Bool.false_eq_true, if_false]
    cases dl <;> simp

/-- C5: when no admin id is configured, or the requester differs from the
configured admin, the upload-intent command yields a denial and creates no
session, and an attachment from that requester is denied on receipt without
being processed (the managed directory is untouched). -/
theorem unauthorized_upload_denied (admin_id : Option Int) (user_id : Int)
    (msg : Msg) (fs : List String) (dl : DlResult)
    (h : ∀ a, admin_id = some a → user_id ≠ a) :
    upload_entry admin_id user_id = (.denied, .idle) ∧
    receive_upload admin_id user_id msg fs dl = (.denied, .idle, fs) := by
  cases admin_id with
  | none => exact ⟨rfl, rfl⟩
  | some a =>
    have hne : user_id ≠ a := h a rfl
    constructor
    · show (if user_id ≠ a then ((.denied, .idle) : EntryReply × ConvState)
          else _) = _
      rw [if_pos hne]
    · show (if user_id ≠ a then
            ((.denied, .idle, fs) : UploadReply × ConvState × List String)
          else _) = _
      rw [if_pos hne]

/-- Witness for C5: user 7 against configured admin 42. -/
theorem unauthorized_upload_denied_witness :
    upload_entry (some 42) 7 = (.denied, .idle) ∧
    receive_upload (some 42) 7 ⟨none, none⟩ [] .success =
      (.denied, .idle, []) :=
  unauthorized_upload_denied (some 42) 7 ⟨none, none⟩ [] .success
    (fun a ha => by
      rw [Option.some.injEq] at ha
      omega)

/-- C6 counterexample: a video-kind attachment named `clip.avi` whose declared
MIME type is absent is accepted and saved, although the claim requires any
attachment with a non-`.mp4` name and a non-video MIME type to be rejected as
unsupported. -/
theorem ext_mime_gate_counterexample :
    receive_upload (some 1) 1
        ⟨some ⟨some 1000, some "clip.avi", "xyz", none⟩, none⟩ [] .success =
      (.saved "clip.avi", .idle, ["clip.avi"]) ∧
    receive_upload (some 1) 1
        ⟨some ⟨some 1000, some "clip.avi", "xyz", none⟩, none⟩ [] .success ≠
      (.unsupportedType, .uploadWaiting, []) := by
  constructor
  · decide
  · decide

/-- C6 amended: for a *document* attachment, a candidate name not ending in
`.mp4` passes the type gate only if the declared MIME type is present,
nonempty and `video`-prefixed; otherwise the attachment is rejected with the
unsupported-type reply, the session remains in `UPLOAD_WAITING` and the
directory is untouched, so a follow-up attachment in the same flow is still
processed.  A video-kind attachment is never rejected by this gate, whatever
its name or MIME type. -/
theorem doc_ext_mime_gate (a : Int) (d : Document) (fs : List String)
    (dl : DlResult)
    (hext : pyEndswith (pyLower (d.file_name.getD "video_upload.mp4")) ".mp4"
      = false)
    (hmime : mimeLooksVideo d = false) :
    receive_upload (some a) a ⟨none, some d⟩ fs dl =
      (.unsupportedType, .uploadWaiting, fs) ∧
    (∀ d2 : Document, mimeLooksVideo d2 = true →
      (receive_upload (some a) a ⟨none, some d2⟩ fs dl).1 ≠ .unsupportedType) ∧
    (∀ v : Video,
      (receive_upload (some a) a ⟨some v, none⟩ fs dl).1 ≠ .unsupportedType) := by
  refine ⟨?_, ?_, ?_⟩
  · rw [receive_upload_auth]
    have hgate : typeGateRejects ⟨none, some d⟩
        (d.file_name.getD "video_upload.mp4") = true := by
      simp [typeGateRejects, docGateRejects, hext, hmime]
    show (if typeGateRejects ⟨none, some d⟩
          (d.file_name.getD "video_upload.mp4") then _ else _) = _
    rw [if_pos (by rw [hgate])]
  · intro d2 h2
    exact not_unsupported_of_gate_false a ⟨none, some d2⟩ fs dl
      d2.file_size (d2.file_name.getD "video_upload.mp4") rfl
      (by simp [typeGateRejects, docGateRejects, h2])
  · intro v
    refine not_unsupported_of_gate_false a ⟨some v, none⟩ fs dl
      v.file_size
      (match v.file_name with
        | some s => if s = "" then "video_" ++ v.file_id ++ ".mp4" else s
        | none => "video_" ++ v.file_id ++ ".mp4") rfl ?_
    simp [typeGateRejects, docGateRejects]

/-- Witness for C6 (amended): a `.txt` document with `text/plain` MIME is
rejected non-terminally. -/
theorem doc_ext_mime_gate_witness :
    receive_upload (some 1) 1
        ⟨none, some ⟨some 10, some "x.txt", some "text/plain"⟩⟩ [] .success =
      (.unsupportedType, .uploadWaiting, []) :=
  (doc_ext_mime_gate 1 ⟨some 10, some "x.txt", some "text/plain"⟩ [] .success
    (by decide) (by decide)).1

/-- C7 counterexample: an oversized attachment that also fails the type gate
(a `.txt` document of 50 MiB + 1 bytes with no MIME type) is rejected as
unsupported and the session *remains* `UPLOAD_WAITING`, not the claimed
too-large rejection with a transition to idle. -/
theorem size_gate_counterexample :
    receive_upload (some 1) 1
        ⟨none, some ⟨some (50 * 1024 * 1024 + 1), some "big.txt", none⟩⟩ []
        .success =
      (.unsupportedType, .uploadWaiting, []) ∧
    receive_upload (some 1) 1
        ⟨none, some ⟨some (50 * 1024 * 1024 + 1), some "big.txt", none⟩⟩ []
        .success ≠
      (.tooLarge, .idle, []) := by
  constructor
  · decide
  · decide

/-- C7 amended: an attachment that passes the extension/MIME gate and whose
declared size exceeds the 50 MiB ceiling is rejected with the too-large reply,
the session transitions to idle (terminal), and no file is written. -/
theorem size_gate_amended (a : Int) (msg : Msg) (fs : List String)
    (dl : DlResult) (k : Nat) (name : String)
    (hmeta : extractMeta msg = some (some k, name))
    (hgate : typeGateRejects msg name = false)
    (hk : max_bytes < k) :
    receive_upload (some a) a msg fs dl = (.tooLarge, .idle, fs) := by
  rw [receive_upload_auth, hmeta]
  have htr : pyTruthyNat (some k) = true := by
    cases k with
    | zero => exact absurd hk (by decide)
    | succ n => rfl
  simp [hgate, htr, hk]

/-- Witness for C7 (amended) at the claim's example size `50*1024*1024 + 1`. -/
theorem size_gate_amended_witness :
    receive_upload (some 1) 1
        ⟨some ⟨some (50 * 1024 * 1024 + 1), some "a.mp4", "id", none⟩, none⟩ []
        .success =
      (.tooLarge, .idle, []) :=
  size_gate_amended 1
    ⟨some ⟨some (50 * 1024 * 1024 + 1), some "a.mp4", "id", none⟩, none⟩ []
    .success (50 * 1024 * 1024 + 1) "a.mp4" (by decide) (by decide) (by decide)

/-- C10: when the attachment declares no size (`None`) or a zero size, the
size gate is skipped entirely: the upload proceeds to destination reservation
and download, with no too-large rejection, whatever the actual size. -/
theorem missing_size_skips_gate (a : Int) (msg : Msg) (fs : List String)
    (dl : DlResult) (fsz : Option Nat) (name : String)
    (hmeta : extractMeta msg = some (fsz, name))
    (hsz : fsz = none ∨ fsz = some 0)
    (hgate : typeGateRejects msg name = false) :
    receive_upload (some a) a msg fs dl =
      match dl with
      | .success => (.saved (reserve_destination fs name), .idle,
          reserve_destination fs name :: fs)
      | .failPartial => (.saveFailed (reserve_destination fs name), .idle,
          reserve_destination fs name :: fs)
      | .failClean => (.saveFailed (reserve_destination fs name), .idle, fs) := by
  apply receive_upload_gates a msg fs dl fsz name hmeta hgate
  rcases hsz with h | h <;> rw [h] <;> rfl

/-- Witness for C10: a video attachment with no declared size is saved. -/
theorem missing_size_skips_gate_witness :
    receive_upload (some 1) 1
        ⟨some ⟨none, some "a.mp4", "id", none⟩, none⟩ [] .success =
      (.saved (reserve_destination [] "a.mp4"), .idle,
        [reserve_destination [] "a.mp4"]) :=
  missing_size_skips_gate 1 ⟨some ⟨none, some "a.mp4", "id", none⟩, none⟩ []
    .success none "a.mp4" (by decide) (Or.inl rfl) (by decide)

/-- C4 counterexample: a download that fails mid-transfer leaves the truncated
file at its final destination (`custom_path` is the destination itself), and
that name is visible to `list_videos` — the claim that a failed write leaves
no partial file visible to the listing is false. -/
theorem io_failure_counterexample :
    receive_upload (some 1) 1
        ⟨some ⟨some 5, some "a.mp4", "id", some "video/mp4"⟩, none⟩ []
        .failPartial =
      (.saveFailed "a.mp4", .idle, ["a.mp4"]) ∧
    "a.mp4" ∈ list_videos ["a.mp4"] :=
  ⟨by decide, mem_list_videos.mpr ⟨by decide, by decide⟩⟩

/-- C4 amended: on an IO failure the handler reports a generic failure reply,
but the transfer targets the final destination directly (no temporary file,
no rename-on-completion), so a partially-written file remains in the managed
directory, and — whenever its name matches the listing filter — it is visible
to `list_videos`. -/
theorem io_failure_leaves_partial (a : Int) (msg : Msg) (fs : List String)
    (fsz : Option Nat) (name : String)
    (hmeta : extractMeta msg = some (fsz, name))
    (hgate : typeGateRejects msg name = false)
    (hsize : (pyTruthyNat fsz && decide (max_bytes < fsz.getD 0)) = false) :
    receive_upload (some a) a msg fs .failPartial =
      (.saveFailed (reserve_destination fs name), .idle,
        reserve_destination fs name :: fs) ∧
    (pyEndswith (reserve_destination fs name) ".mp4" = true →
      reserve_destination fs name ∈
        list_videos (reserve_destination fs name :: fs)) := by
  constructor
  · exact receive_upload_gates a msg fs .failPartial fsz name hmeta hgate hsize
  · intro hmp4
    exact mem_list_videos.mpr ⟨List.mem_cons_self _ _, hmp4⟩

/-- Witness for C4 (amended). -/
theorem io_failure_leaves_partial_witness :
    receive_upload (some 1) 1
        ⟨some ⟨some 6, some "b.mp4", "idb", none⟩, none⟩ [] .failPartial =
      (.saveFailed (reserve_destination [] "b.mp4"), .idle,
        [reserve_destination [] "b.mp4"]) ∧
    (pyEndswith (reserve_destination [] "b.mp4") ".mp4" = true →
      reserve_destination [] "b.mp4" ∈
        list_videos [reserve_destination [] "b.mp4"]) :=
  io_failure_leaves_partial 1 ⟨some ⟨some 6, some "b.mp4", "idb", none⟩, none⟩
    [] (some 6) "b.mp4" (by decide) (by decide) (by decide)

/-- C8 counterexample: a second `/upload` from the authorized admin while the
session is already waiting is handled by the unknown-command catch-all, not
re-prompted: the conversation's entry point is not re-entered. -/
theorem reupload_counterexample :
    dispatch_command (some 1) 1 .uploadWaiting "upload" =
      (.unknownCommand, .uploadWaiting) ∧
    dispatch_command (some 1) 1 .uploadWaiting "upload" ≠
      (.uploadPrompt, .uploadWaiting) := by
  constructor
  · rfl
  · decide

/-- C8 amended: while a session is in `UPLOAD_WAITING`, a further `/upload`
command matches neither the state's handlers nor the fallback, and — with
conversation re-entry disabled — falls through to the unknown-command
handler; the session remains `UPLOAD_WAITING` (no second session is stacked,
and no new prompt is emitted). -/
theorem reupload_falls_through (admin_id : Option Int) (user_id : Int) :
    dispatch_command admin_id user_id .uploadWaiting "upload" =
      (.unknownCommand, .uploadWaiting) :=
  rfl

/-- C9: any `V:`-prefixed callback token decodes to its raw suffix — with no
membership check against the catalog and no stripping of directory
components — and when a file of admissible size exists at `videos/<suffix>`,
the handler sends the file at exactly that joined path, even when the suffix
escapes the managed directory through `..` components. -/
theorem callback_no_sanitization (m : Registry) (stat : String → Option Nat)
    (s : String) (k : Nat) (hstat : stat (pyJoinVideos s) = some k)
    (hk : k ≤ max_bytes) :
    decodeToken m ("V:" ++ s) = .found s ∧
    callback_query_handler m stat ("V:" ++ s) = .sendVideo (pyJoinVideos s) := by
  refine ⟨decodeToken_V m s, ?_⟩
  unfold callback_query_handler
  rw [decodeToken_V]
  show (match stat (pyJoinVideos s) with
      | none => CbOutcome.fileMissing
      | some size =>
        if max_bytes < size then CbOutcome.fileTooLarge
        else CbOutcome.sendVideo (pyJoinVideos s)) = _
  rw [hstat]
  exact if_neg (Nat.not_lt_of_le hk)

/-- Witness for C9: the token `V:../secret.mp4` sends the file at
`videos/../secret.mp4`, outside the managed directory. -/
theorem callback_no_sanitization_witness :
    decodeToken [] ("V:" ++ "../secret.mp4") = .found "../secret.mp4" ∧
    callback_query_handler []
        (fun p => if p = "videos/../secret.mp4" then some 5 else none)
        ("V:" ++ "../secret.mp4") =
      .sendVideo (pyJoinVideos "../secret.mp4") :=
  callback_no_sanitization []
    (fun p => if p = "videos/../secret.mp4" then some 5 else none)
    "../secret.mp4" 5 (by decide) (by decide)

end SoraBot
